import Mathlib

/-!
# Verification of the delivery-marketplace order fulfillment engine

Shallow embedding of the Order Fulfillment & Dispatch Engine of the
delivery-api backend: the stock ledger (`app/services/product_service.py`),
the order composer and state machine (`app/services/order_service.py`),
the dispatch coordinator (`accept_order_atomic`, the drivers and orders
routers, `app/tasks/order_tasks.py`), the admin router
(`app/routers/admin.py`), the cache-aside layer and the idempotency
middleware (`app/middleware/idempotency.py`).

Conventions of the embedding:
- Database rows are records in lists; SQLAlchemy `select ... where id == x`
  with `scalar_one_or_none` is `List.find?` on the id; an ORM in-place row
  mutation followed by commit is a map that replaces the rows with the
  matching id.
- Python `datetime` values are `Int` seconds; `timedelta(minutes=10)` is
  `600`.
- Python numeric prices are `Rat`; stock is `Int` (a signed SQL Integer);
  request quantities are `Nat` (the pydantic schema enforces positivity).
- Fallible service methods return `Except PyError _`; a method that commits
  mid-flight returns its error together with the database state left behind
  by the already committed work (`Except (PyError × DBState) DBState`).
- The Redis cache is modelled explicitly only where a claim is about it;
  elsewhere reads are modelled against the source of truth, which in a
  sequential execution the cache mirrors.
-/

/-- The `OrderStatus` enum of `app/db/models.py` (lines 7-14).  The member
for the terminal cancelled state is spelled `cancelled` in the source. -/
inductive OrderStatus where
  | pending
  | confirmed
  | assigned
  | picked_up
  | in_transit
  | delivered
  | cancelled
  deriving Repr, DecidableEq

/-- The string value of each `OrderStatus` member (the enum is a `str` enum
whose values equal the member names). -/
def statusValue : OrderStatus → String
  | .pending => "pending"
  | .confirmed => "confirmed"
  | .assigned => "assigned"
  | .picked_up => "picked_up"
  | .in_transit => "in_transit"
  | .delivered => "delivered"
  | .cancelled => "cancelled"

/-- Value lookup `models.OrderStatus(new_status)`: maps a status string to
the enum member, failing (Python `ValueError`) on anything else. -/
def OrderStatus.ofValue : String → Option OrderStatus
  | "pending" => some .pending
  | "confirmed" => some .confirmed
  | "assigned" => some .assigned
  | "picked_up" => some .picked_up
  | "in_transit" => some .in_transit
  | "delivered" => some .delivered
  | "cancelled" => some .cancelled
  | _ => none

/-- Python attribute lookup on the `OrderStatus` enum class by member *name*
(`models.OrderStatus.<name>`).  `models.py` defines the member named
`cancelled`; looking up the name `canceled` (which
`AsyncOrderService.update_order_status`, line 350, does) yields nothing and
raises `AttributeError` in Python. -/
def OrderStatus.attrMember : String → Option OrderStatus
  | "pending" => some .pending
  | "confirmed" => some .confirmed
  | "assigned" => some .assigned
  | "picked_up" => some .picked_up
  | "in_transit" => some .in_transit
  | "delivered" => some .delivered
  | "cancelled" => some .cancelled
  | _ => none

/-- The `UserRole` enum of `app/db/models.py` (lines 16-20). -/
inductive UserRole where
  | customer
  | driver
  | admin
  | store_owner
  deriving Repr, DecidableEq

/-- Errors raised by the service layer (`app/utils/exceptions.py`) together
with the raw Python failures the embedding must track.  `invalidTransition`
is `InvalidOrderStatusError` (exceptions.py lines 90-97);
`attributeError` is a Python `AttributeError` (a missing attribute such as a
nonexistent enum member); `forbidden` is an HTTP 403. -/
inductive PyError where
  | notFound (resource : String) (id : Nat)
  | badRequest (msg : String)
  | insufficientStock (name : String) (requested : Nat) (available : Int)
  | invalidTransition (current requested : String)
  | forbidden (msg : String)
  | attributeError (attr : String)
  deriving Repr, DecidableEq

/-- A row of the `order_items` table (`models.OrderItem`). -/
structure OrderItem where
  productId : Nat
  quantity : Nat
  priceAtPurchase : Rat
  deriving Repr, DecidableEq

/-- A row of the `orders` table (`models.Order`).  Fields not touched by the
fulfillment engine (delivery address and GPS fields, payment metadata,
`group_id`, `created_at`) are omitted. -/
structure Order where
  id : Nat
  userId : Nat
  storeId : Nat
  driverId : Option Nat
  status : OrderStatus
  totalPrice : Rat
  assignedAt : Option Int
  items : List OrderItem
  deriving Repr, DecidableEq

/-- A row of the `products` table (`models.Product`).  Descriptive fields
(category, description, image) are omitted. -/
structure Product where
  id : Nat
  storeId : Nat
  name : String
  price : Rat
  stock : Int
  deriving Repr, DecidableEq

/-- The relational store, restricted to the tables the fulfillment engine
reads and writes. -/
structure DBState where
  products : List Product
  orders : List Order
  deriving Repr, DecidableEq

/-- `SELECT ... FROM products WHERE id == pid` with `scalar_one_or_none`. -/
def findProduct (db : DBState) (pid : Nat) : Option Product :=
  db.products.find? (fun p => p.id == pid)

/-- `SELECT ... FROM orders WHERE id == oid` with `scalar_one_or_none`. -/
def findOrder (db : DBState) (oid : Nat) : Option Order :=
  db.orders.find? (fun o => o.id == oid)

/-- Committing an in-place mutation of a product row: every row with the
same id is replaced by the updated record. -/
def setProduct (db : DBState) (p : Product) : DBState :=
  { db with products := db.products.map (fun q => if q.id == p.id then p else q) }

/-- Committing an in-place mutation of an order row. -/
def setOrder (db : DBState) (o : Order) : DBState :=
  { db with orders := db.orders.map (fun q => if q.id == o.id then o else q) }

/-- The stock of a given product as currently stored. -/
def productStock (db : DBState) (pid : Nat) : Option Int :=
  (findProduct db pid).map (fun p => p.stock)

/-- Python truthiness of a nullable integer column (`if order.driver_id`):
`None` and `0` are falsy. -/
def truthy : Option Nat → Bool
  | none => false
  | some n => n != 0

/-! ## Stock ledger (`app/services/product_service.py`) -/

/-- Embeds `AsyncProductService.reserve_stock` (product_service.py lines
271-291): fetch the product row from the database, fail with
`NotFoundError` if absent, fail with `InsufficientStockError(name,
requested, available)` if `stock < quantity`, otherwise decrement the stock
and commit.  The cache invalidation side effect touches no relational
state. -/
def reserveStock (db : DBState) (productId : Nat) (quantity : Nat) :
    Except PyError DBState :=
  match findProduct db productId with
  | none => .error (.notFound "Product" productId)
  | some product =>
    if product.stock < (quantity : Int) then
      .error (.insufficientStock product.name quantity product.stock)
    else
      .ok (setProduct db { product with stock := product.stock - (quantity : Int) })

/-- Embeds `AsyncProductService.release_stock` (product_service.py lines
293-308): a single unconditional `UPDATE products SET stock = stock +
quantity WHERE id == product_id` followed by a commit; a missing product id
updates no rows. -/
def releaseStock (db : DBState) (productId : Nat) (quantity : Nat) : DBState :=
  match findProduct db productId with
  | none => db
  | some product =>
      setProduct db { product with stock := product.stock + (quantity : Int) }

/-- One call against the stock ledger for a fixed product. -/
inductive StockOp where
  | reserve (q : Nat)
  | release (q : Nat)
  deriving Repr, DecidableEq

/-- The database state after one ledger call: a failed `reserve` raises and
leaves the store untouched. -/
def stockOpApply (db : DBState) (pid : Nat) : StockOp → DBState
  | .reserve q =>
    match reserveStock db pid q with
    | .ok db2 => db2
    | .error _ => db
  | .release q => releaseStock db pid q

/-- The observable states after each call of a ledger call sequence. -/
def stockStates (db : DBState) (pid : Nat) : List StockOp → List DBState
  | [] => []
  | op :: ops =>
    let db2 := stockOpApply db pid op
    db2 :: stockStates db2 pid ops

/-! ## Dispatch coordinator (`AsyncOrderService.accept_order_atomic`) -/

/-- Embeds `AsyncOrderService.accept_order_atomic` (order_service.py lines
364-394): select the order row under an exclusive row lock (`FOR UPDATE`);
`NotFoundError` if absent; `BadRequestError` if the status is outside
`{pending, confirmed}`; `BadRequestError` if a truthy driver reference other
than the caller is already set (`if order.driver_id and order.driver_id !=
driver_id`); otherwise set the driver reference, status `assigned` and
`assigned_at = now` and commit.  Any failure rolls the transaction back, so
an error leaves the store unchanged; the row lock serializes racing calls,
which is why a single call is an atomic step of the model. -/
def acceptOrderAtomic (db : DBState) (orderId driverId : Nat) (now : Int) :
    Except PyError DBState :=
  match findOrder db orderId with
  | none => .error (.notFound "Order" orderId)
  | some order =>
    if ¬ (order.status = .pending ∨ order.status = .confirmed) then
      .error (.badRequest ("Cannot accept order in status " ++
        statusValue order.status))
    else if truthy order.driverId ∧ order.driverId ≠ some driverId then
      .error (.badRequest "Order already assigned to another driver")
    else
      .ok (setOrder db { order with
                         driverId := some driverId
                         status := .assigned
                         assignedAt := some now })

/-- The result sequence and final state of a list of `accept` calls racing
on one order, serialized by the exclusive row lock: each call sees the state
committed by the previous one; a failed call commits nothing. -/
def acceptResults (db : DBState) (oid : Nat) (now : Int) :
    List Nat → List (Except PyError Unit) × DBState
  | [] => ([], db)
  | d :: ds =>
    match acceptOrderAtomic db oid d now with
    | .ok db2 =>
      let r := acceptResults db2 oid now ds
      (.ok () :: r.1, r.2)
    | .error e =>
      let r := acceptResults db oid now ds
      (.error e :: r.1, r.2)

/-- Whether an accept call succeeded. -/
def isOkResult : Except PyError Unit → Bool
  | .ok _ => true
  | .error _ => false

/-! ## Concrete fixtures used by counterexamples and witnesses -/

/-- An order whose driver assignment is 20 minutes old (stale by the
10-minute expiry window). -/
def exC1order : Order :=
  { id := 1, userId := 10, storeId := 1, driverId := some 1
    status := .assigned, totalPrice := 0, assignedAt := some 0, items := [] }

def exC1db : DBState := { products := [], orders := [exC1order] }

/-- An unassigned confirmed order. -/
def exC1okOrder : Order :=
  { id := 1, userId := 10, storeId := 1, driverId := none
    status := .confirmed, totalPrice := 0, assignedAt := none, items := [] }

def exC1okDb : DBState := { products := [], orders := [exC1okOrder] }

/-- A catalog with a single product of stock 3. -/
def exC9db : DBState :=
  { products := [{ id := 42, storeId := 1, name := "Water", price := 5
                   stock := 3 }],
    orders := [] }

/-- `exC9db` after a committed reservation of 2 units. -/
def exC9dbAfter : DBState :=
  { products := [{ id := 42, storeId := 1, name := "Water", price := 5
                   stock := 1 }],
    orders := [] }

/-! ## Order state machine (`AsyncOrderService.update_order_status`) -/

/-- The loop `for item in order.items: await product_svc.release_stock(
item.product_id, item.quantity)` of the cancellation branch. -/
def releaseAllItems (db : DBState) : List OrderItem → DBState
  | [] => db
  | it :: rest => releaseAllItems (releaseStock db it.productId it.quantity) rest

/-- Embeds `AsyncOrderService.update_order_status` (order_service.py lines
337-362): load the order (`NotFoundError` if absent); parse the status
string through the enum value constructor (`BadRequestError` on an unknown
value); then evaluate `if new_status_enum == models.OrderStatus.canceled:`
(line 350) — an attribute lookup of the member name `canceled`, which does
not exist on the enum (`models.py` spells it `cancelled`), so Python raises
`AttributeError` here; the cancellation branch (release the stock of every
item, clear `driver_id` and `assigned_at`) and the status assignment plus
commit are embedded verbatim below the lookup, but are unreachable.  The
`current_user` parameter of the source is never read — the function
performs no role or transition-table validation — so it is omitted. -/
def updateOrderStatus (db : DBState) (orderId : Nat) (newStatus : String) :
    Except PyError DBState :=
  match findOrder db orderId with
  | none => .error (.notFound "Order" orderId)
  | some order =>
    match OrderStatus.ofValue newStatus with
    | none => .error (.badRequest ("Invalid status: " ++ newStatus))
    | some statusEnum =>
      match OrderStatus.attrMember "canceled" with
      | none => .error (.attributeError "canceled")
      | some canceledMember =>
        if statusEnum = canceledMember then
          let db2 := releaseAllItems db order.items
          .ok (setOrder db2 { order with
            status := statusEnum
            driverId := none
            assignedAt := none })
        else
          .ok (setOrder db { order with status := statusEnum })

/-- Embeds the admin cancellation endpoint `cancel_order`
(app/routers/admin.py lines 34-69): admin-only; 404 if the order is
missing; 400 if the order is already delivered or cancelled; otherwise set
the status to `cancelled`, clear the driver reference when one is set, and
commit.  The endpoint releases no stock, leaves `assigned_at` untouched,
and performs no cache invalidation. -/
def adminCancelOrder (db : DBState) (role : UserRole) (orderId : Nat) :
    Except PyError DBState :=
  if role ≠ .admin then
    .error (.forbidden "Only admins can cancel orders")
  else
    match findOrder db orderId with
    | none => .error (.notFound "Order" orderId)
    | some order =>
      if order.status = .delivered ∨ order.status = .cancelled then
        .error (.badRequest
          "Cannot cancel order that is already delivered or cancelled")
      else
        let order2 := { order with status := OrderStatus.cancelled }
        let order3 := if truthy order2.driverId then
            { order2 with driverId := none }
          else order2
        .ok (setOrder db order3)

/-- Whether a status-update result is the `InvalidOrderStatusError` of
exceptions.py (the error the spec calls `InvalidTransition`). -/
def isInvalidTransitionError : Except PyError DBState → Bool
  | .error (.invalidTransition _ _) => true
  | _ => false

/-- A pending order with no driver and no items. -/
def exC3order : Order :=
  { id := 1, userId := 10, storeId := 1, driverId := none
    status := .pending, totalPrice := 0, assignedAt := none, items := [] }

def exC3db : DBState := { products := [], orders := [exC3order] }

/-- One order item of 3 units of product 42. -/
def exC4item : OrderItem :=
  { productId := 42, quantity := 3, priceAtPurchase := 5 }

/-- An assigned order (driver 7, assigned at t = 100) holding the
reservation of `exC4item`; product 42 has stock 2 after that reservation
(5 before it). -/
def exC4order : Order :=
  { id := 1, userId := 10, storeId := 1, driverId := some 7
    status := .assigned, totalPrice := 15, assignedAt := some 100
    items := [exC4item] }

def exC4db : DBState :=
  { products := [{ id := 42, storeId := 1, name := "Water", price := 5
                   stock := 2 }],
    orders := [exC4order] }

/-- The database the admin cancellation endpoint commits from `exC4db`. -/
def exC4dbAfterCancel : DBState :=
  { products := [{ id := 42, storeId := 1, name := "Water", price := 5
                   stock := 2 }],
    orders := [{ exC4order with status := .cancelled, driverId := none }] }

/-! ## Reclaim sweep (`app/tasks/order_tasks.py`) and driver cap -/

/-- The selection predicate of the reclaim sweep:
`Order.status == assigned AND Order.assigned_at <= now - 10 minutes`
(a SQL comparison against NULL is not satisfied). -/
def orderExpired (now : Int) (o : Order) : Bool :=
  o.status == .assigned &&
    (match o.assignedAt with
     | some t => decide (t ≤ now - 600)
     | none => false)

/-- The per-order revert of the sweep: clear the driver reference, set the
status back to `confirmed`, clear `assigned_at`. -/
def revertOrder (o : Order) : Order :=
  { o with driverId := none, status := .confirmed, assignedAt := none }

/-- Embeds the body of `reclaim_expired_assignments` (order_tasks.py lines
25-56): select every order with status `assigned` and `assigned_at` at
least 10 minutes old, revert each in place, commit once, and return the
revert count.  NOTE: the surrounding module opens with
`from typing import int as _int` (line 2), which raises `ImportError` when
the Celery worker imports it — so although this body is what a run would
do, no run ever happens in the deployed program. -/
def reclaimExpiredAssignments (db : DBState) (now : Int) : DBState × Nat :=
  ({ db with
      orders := db.orders.map
          (fun o => if orderExpired now o then revertOrder o else o) },
   (db.orders.filter (orderExpired now)).length)

/-- `AsyncDriverService.check_driver_availability` count (driver_service.py
lines 334-353): the driver orders in status `assigned` or `in_transit`. -/
def activeDeliveries (db : DBState) (driverId : Nat) : Nat :=
  (db.orders.filter (fun o => o.driverId == some driverId &&
    (o.status == .assigned || o.status == .in_transit))).length

/-- `check_driver_availability` itself: available when the active count is
below `MAX_CONCURRENT_DELIVERIES = 3`. -/
def checkDriverAvailability (db : DBState) (driverId : Nat) : Bool :=
  decide (activeDeliveries db driverId < 3)

/-- Embeds `POST /drivers/accept-order/{order_id}` (drivers.py lines
67-87): the availability check runs first and rejects with a 400 before
any assignment is attempted; otherwise the request delegates to
`accept_order_atomic` (through `AsyncDriverService.accept_order`, whose
extra work is cache invalidation only). -/
def driversAcceptOrder (db : DBState) (driverId orderId : Nat) (now : Int) :
    Except PyError DBState :=
  if checkDriverAvailability db driverId = false then
    .error (.badRequest
      "You have reached the maximum number of concurrent deliveries")
  else
    acceptOrderAtomic db orderId driverId now

/-- Embeds `PUT /orders/{order_id}/accept` (orders.py lines 277-298):
drivers only; no availability check; calls `accept_order_atomic`
directly. -/
def ordersAcceptOrder (db : DBState) (role : UserRole)
    (userId orderId : Nat) (now : Int) : Except PyError DBState :=
  if role ≠ .driver then
    .error (.forbidden "Only drivers can accept orders")
  else
    acceptOrderAtomic db orderId userId now

/-- Reclaim fixture: order 1 assigned 700 seconds ago (stale), order 2
assigned 50 seconds ago (fresh), order 3 pending. -/
def exC8o1 : Order :=
  { id := 1, userId := 10, storeId := 1, driverId := some 7, status := .assigned, totalPrice := 0, assignedAt := some 0, items := [] }

def exC8o2 : Order :=
  { id := 2, userId := 11, storeId := 1, driverId := some 8, status := .assigned, totalPrice := 0, assignedAt := some 650, items := [] }

def exC8o3 : Order :=
  { id := 3, userId := 12, storeId := 1, driverId := none, status := .pending, totalPrice := 0, assignedAt := none, items := [] }

def exC8db : DBState := { products := [], orders := [exC8o1, exC8o2, exC8o3] }

/-- `exC8db` after the sweep at t = 700: only order 1 reverted. -/
def exC8dbAfter : DBState :=
  { products := [], orders := [revertOrder exC8o1, exC8o2, exC8o3] }

/-- Driver-cap fixture: driver 7 already holds three active deliveries
(orders 1 and 2 assigned, order 3 in transit); order 4 is confirmed and
unassigned. -/
def exC10o1 : Order :=
  { id := 1, userId := 10, storeId := 1, driverId := some 7, status := .assigned, totalPrice := 0, assignedAt := some 0, items := [] }

def exC10o2 : Order :=
  { id := 2, userId := 11, storeId := 1, driverId := some 7, status := .assigned, totalPrice := 0, assignedAt := some 0, items := [] }

def exC10o3 : Order :=
  { id := 3, userId := 12, storeId := 1, driverId := some 7, status := .in_transit, totalPrice := 0, assignedAt := some 0, items := [] }

def exC10o4 : Order :=
  { id := 4, userId := 13, storeId := 1, driverId := none, status := .confirmed, totalPrice := 0, assignedAt := none, items := [] }

def exC10db : DBState :=
  { products := [], orders := [exC10o1, exC10o2, exC10o3, exC10o4] }

/-- `exC10db` after driver 7 accepts order 4 through the orders router. -/
def exC10dbAfter : DBState :=
  { products := []
    orders := [exC10o1, exC10o2, exC10o3,
      { exC10o4 with driverId := some 7, status := .assigned, assignedAt := some 100 }] }

/-! ## Idempotency guard (`app/middleware/idempotency.py`) -/

/-- A row of the `idempotency_keys` table (`models.IdempotencyKey`,
models.py lines 148-152): the SHA-256 fingerprint of the client key, the
stored response (status code and body), and `created_at`.  The table has
no TTL column. -/
structure IdemRecord where
  keyHash : String
  statusCode : Nat
  body : String
  createdAt : Int
  deriving Repr, DecidableEq

/-- The fingerprint lookup `select(IdempotencyKey).where(key_hash == ...)`
of the middleware.  It ignores `created_at` entirely. -/
def findIdemRecord (records : List IdemRecord) (keyHash : String) :
    Option IdemRecord :=
  records.find? (fun r => r.keyHash == keyHash)

/-- Embeds `IdempotencyMiddleware.dispatch` (idempotency.py lines 20-132)
for a keyed POST /orders request, run sequentially: look the fingerprint
up; if a record exists, replay its stored status and body verbatim without
invoking the downstream handler (`call_next`); otherwise invoke the
handler, persist fingerprint → response with `created_at = now`
(insert-if-absent; sequentially the insert succeeds), and return the
handler response.  The result carries the response served, the record
table afterwards, and whether the handler ran.  No expiry condition
appears anywhere in the source: a stored record is replayed whatever its
age. -/
def idemDispatch (records : List IdemRecord) (keyHash : String) (now : Int)
    (handler : Nat × String) : (Nat × String) × List IdemRecord × Bool :=
  match findIdemRecord records keyHash with
  | some existing => ((existing.statusCode, existing.body), records, false)
  | none =>
    ((handler.1, handler.2),
     records ++ [{ keyHash := keyHash, statusCode := handler.1
                   body := handler.2, createdAt := now }],
     true)

/-- A stored idempotency record created at t = 0. -/
def exC6rec : IdemRecord :=
  { keyHash := "abc", statusCode := 201, body := "orders-created-v1"
    createdAt := 0 }

/-! ## Cache-aside layer (order flow keys) -/

/-- The serialized order snapshot `_serialize_order` writes to Redis
(order_service.py lines 37-87), restricted to the modelled fields. -/
structure SerOrder where
  id : Nat
  userId : Nat
  storeId : Nat
  driverId : Option Nat
  status : String
  totalPrice : Rat
  assignedAt : Option Int
  deriving Repr, DecidableEq

def serializeOrder (o : Order) : SerOrder :=
  { id := o.id, userId := o.userId, storeId := o.storeId
    driverId := o.driverId, status := statusValue o.status
    totalPrice := o.totalPrice, assignedAt := o.assignedAt }

/-- A cached value: an order snapshot or an id list (the available-orders
aggregates). -/
inductive CacheVal where
  | orderVal (s : SerOrder)
  | idListVal (ids : List Nat)
  deriving Repr, DecidableEq

/-- The Redis keyspace, exposing GET, SETEX and multi-key DELETE. -/
abbrev Cache := List (String × CacheVal)

def cacheGet (c : Cache) (k : String) : Option CacheVal :=
  (c.find? (fun kv => kv.1 == k)).map (fun kv => kv.2)

def cacheSet (c : Cache) (k : String) (v : CacheVal) : Cache :=
  (k, v) :: c.filter (fun kv => kv.1 != k)

def cacheDel (c : Cache) (ks : List String) : Cache :=
  c.filter (fun kv => !ks.contains kv.1)

def orderKey (oid : Nat) : String := "order:" ++ toString oid

def userOrdersKey (uid : Nat) : String := "orders:user:" ++ toString uid

/-- `AsyncOrderService._invalidate_order_flow` (order_service.py lines
96-104): delete the order key, the two available-orders aggregate keys
and, when `user_id` is truthy, the user order-list key. -/
def invalidateOrderFlow (c : Cache) (oid uid : Nat) : Cache :=
  cacheDel c ([orderKey oid, "orders:available", "drivers:available_orders"]
    ++ if uid ≠ 0 then [userOrdersKey uid] else [])

/-- `AsyncOrderService.get_order` through the cache (order_service.py
lines 213-274), without a requesting user (so no scoping checks): a cache
hit is returned as is; a miss loads the row (404 when absent), writes the
snapshot back and returns it. -/
def getOrderCached (db : DBState) (c : Cache) (oid : Nat) :
    Except PyError (SerOrder × Cache) :=
  match cacheGet c (orderKey oid) with
  | some (.orderVal s) => .ok (s, c)
  | _ =>
    match findOrder db oid with
    | none => .error (.notFound "Order" oid)
    | some o =>
      .ok (serializeOrder o,
        cacheSet c (orderKey oid) (.orderVal (serializeOrder o)))

/-- `accept_order_atomic` including its cache effect: after the commit the
service calls `_invalidate_order_flow(order_id, order.user_id)`
(order_service.py line 389). -/
def acceptOrderAtomicCached (db : DBState) (c : Cache) (oid did : Nat)
    (now : Int) : Except PyError (DBState × Cache) :=
  match findOrder db oid with
  | none => .error (.notFound "Order" oid)
  | some o =>
    match acceptOrderAtomic db oid did now with
    | .error e => .error e
    | .ok db2 => .ok (db2, invalidateOrderFlow c oid o.userId)

/-- The admin cancellation endpoint including its (absent) cache effect:
`app/routers/admin.py` holds no Redis access at all, so the cache is
returned untouched. -/
def adminCancelOrderCached (db : DBState) (c : Cache) (role : UserRole)
    (oid : Nat) : Except PyError (DBState × Cache) :=
  match adminCancelOrder db role oid with
  | .error e => .error e
  | .ok db2 => .ok (db2, c)

/-- A pending order cached while still pending. -/
def exC7order : Order :=
  { id := 1, userId := 10, storeId := 1, driverId := none
    status := .pending, totalPrice := 0, assignedAt := none, items := [] }

def exC7db : DBState := { products := [], orders := [exC7order] }

def exC7cache : Cache := [(orderKey 1, .orderVal (serializeOrder exC7order))]

/-- `exC7db` after the admin cancellation commits. -/
def exC7dbAfter : DBState :=
  { products := [], orders := [{ exC7order with status := .cancelled }] }

/-- `exC1okDb` after driver 5 accepts order 1 at t = 100. -/
def exC7accDb : DBState :=
  setOrder exC1okDb { exC1okOrder with
    driverId := some 5
    status := .assigned
    assignedAt := some 100 }

/-! ## Order composer (`AsyncOrderService.create_order`) -/

/-- A cart line of the request schema `OrderItemCreate` (schemas/order.py
lines 6-9): product id and quantity.  The schema enforces
`1 ≤ quantity ≤ 100`, and the `OrderCreate` validator
`validate_unique_products` (lines 25-32) rejects any cart repeating a
product id, so carts reaching `create_order` have pairwise distinct
product ids — the `Nodup` hypothesis of the theorems below. -/
abbrev CartLine := Nat × Nat

/-- Phase 1 of `create_order` (order_service.py lines 130-140): for every
cart line resolve the product (`get_product`, `NotFoundError` when
missing) and pre-validate stock (`check_stock_availability`,
`InsufficientStockError` when `stock < quantity`), collecting the product
snapshots.  No mutation happens in this phase; the sequential embedding
reads products from the source of truth, which the cache mirrors. -/
def validateItems (db : DBState) : List CartLine →
    Except PyError (List (Product × Nat))
  | [] => .ok []
  | (pid, qty) :: rest =>
    match findProduct db pid with
    | none => .error (.notFound "Product" pid)
    | some product =>
      if product.stock < (qty : Int) then
        .error (.insufficientStock product.name qty product.stock)
      else
        match validateItems db rest with
        | .error e => .error e
        | .ok v => .ok ((product, qty) :: v)

/-- Insertion step of the stable sort by store id. -/
def insertByStore (x : Product × Nat) :
    List (Product × Nat) → List (Product × Nat)
  | [] => [x]
  | y :: ys =>
    if y.1.storeId ≤ x.1.storeId then y :: insertByStore x ys
    else x :: y :: ys

/-- `validated_items.sort(key=lambda x: x["store_id"])` (line 143): a
stable sort by store id (insertion sort here; CPython uses Timsort — any
stable sort by the same key agrees, and only the permutation property
matters below). -/
def sortByStore : List (Product × Nat) → List (Product × Nat)
  | [] => []
  | x :: xs => insertByStore x (sortByStore xs)

/-- The grouping key comparison of `itertools.groupby`. -/
def sameStore (x y : Product × Nat) : Bool := y.1.storeId == x.1.storeId

/-- `itertools.groupby(validated_items, key=lambda x: x["store_id"])`
(line 148): split a list into maximal runs of consecutive elements with
equal store id. -/
def pyGroupBy : List (Product × Nat) → List (List (Product × Nat))
  | [] => []
  | x :: xs =>
    (x :: xs.takeWhile (sameStore x)) :: pyGroupBy (xs.dropWhile (sameStore x))
termination_by l => l.length
decreasing_by
  simp only [List.length_cons]
  exact Nat.lt_succ_of_le (List.dropWhile_sublist _).length_le

/-- The SQLAlchemy session of one `create_order` call: the committed
database plus the order rows added with `db.add` but not yet committed. -/
structure Session where
  committed : DBState
  pendingOrders : List Order
  deriving Repr, DecidableEq

/-- The final `await self.db.commit()` (line 185): flush every pending
order row. -/
def commitSession (s : Session) : DBState :=
  { s.committed with orders := s.committed.orders ++ s.pendingOrders }

/-- `reserve_stock` called from inside `create_order` (line 166): the
`db.commit()` it performs commits the WHOLE session — the stock decrement
and any order rows already added for earlier merchant groups.  On failure
it raises, and the surrounding rollback discards only the rows still
pending; everything previously committed stays, which is why the error
carries the database state left behind. -/
def reserveInSession (s : Session) (pid qty : Nat) :
    Except (PyError × DBState) Session :=
  match reserveStock s.committed pid qty with
  | .error e => .error (e, s.committed)
  | .ok db2 =>
    .ok { committed := { db2 with orders := db2.orders ++ s.pendingOrders }
          pendingOrders := [] }

/-- The inner loop over one merchant group (lines 153-166): build the
order items and reserve stock line by line. -/
def reserveGroup (s : Session) :
    List (Product × Nat) → Except (PyError × DBState) Session
  | [] => .ok s
  | x :: rest =>
    match reserveInSession s x.1.id x.2 with
    | .error e => .error e
    | .ok s2 => reserveGroup s2 rest

/-- The `OrderItem` rows of one merchant group, with
`price_at_purchase` snapshotted from the current product price. -/
def buildOrderItems (g : List (Product × Nat)) : List OrderItem :=
  g.map (fun x => { productId := x.1.id, quantity := x.2
                    priceAtPurchase := x.1.price })

/-- `total_price = Σ price * qty` over one merchant group (line 165). -/
def groupTotal (g : List (Product × Nat)) : Rat :=
  (g.map (fun x => x.1.price * (x.2 : Rat))).sum

/-- The `groupby` key of a group (its store id). -/
def groupStoreId : List (Product × Nat) → Nat
  | [] => 0
  | x :: _ => x.1.storeId

/-- The outer loop over merchant groups (lines 148-183): reserve every
line of the group, then `db.add` one pending `Order` row (status
`pending`, no driver) whose id the database will assign — modelled by the
`fid` counter. -/
def processGroups (uid : Nat) : Nat → Session →
    List (List (Product × Nat)) → Except (PyError × DBState) Session
  | _, s, [] => .ok s
  | fid, s, g :: rest =>
    match reserveGroup s g with
    | .error e => .error e
    | .ok s2 =>
      processGroups uid (fid + 1)
        { s2 with pendingOrders := s2.pendingOrders ++
            [{ id := fid, userId := uid, storeId := groupStoreId g
               driverId := none, status := .pending
               totalPrice := groupTotal g, assignedAt := none
               items := buildOrderItems g }] } rest

/-- Embeds `AsyncOrderService.create_order` (order_service.py lines
122-211): reject an empty cart; pre-validate every line; sort the
validated lines by store id and group them by store; then reserve and
create one order per merchant group; the final commit flushes the pending
rows.  Any raise triggers `self.db.rollback()`, which discards only the
pending rows — the error therefore carries the database state as left by
the already committed reservations. -/
def createOrder (db : DBState) (uid : Nat) (cart : List CartLine)
    (freshId : Nat) : Except (PyError × DBState) DBState :=
  if cart = [] then
    .error (.badRequest "Order must contain at least one item", db)
  else
    match validateItems db cart with
    | .error e => .error (e, db)
    | .ok validated =>
      match processGroups uid freshId { committed := db, pendingOrders := [] }
          (pyGroupBy (sortByStore validated)) with
      | .error e => .error e
      | .ok s => .ok (commitSession s)

/-- A cart line that fails pre-validation: its product is missing, or the
product stock is below the requested quantity. -/
def lineFails (db : DBState) (pid qty : Nat) : Prop :=
  findProduct db pid = none ∨
    ∃ p, findProduct db pid = some p ∧ p.stock < (qty : Int)

/-! ### Row replacement lemmas -/

theorem find?_map_replace_self {α : Type} (key : α → Nat) (pid : Nat)
    (l : List α) (p x : α) (h : l.find? (fun z => key z == pid) = some p)
    (hk : key x = key p) :
    (l.map (fun q => if key q == key x then x else q)).find?
      (fun z => key z == pid) = some x := by
  induction l with
  | nil => simp at h
  | cons a t ih =>
    simp only [List.map_cons]
    by_cases ha : (key a == pid) = true
    · rw [List.find?_cons_of_pos (p := fun z => key z == pid) t ha] at h
      have hap : a = p := Option.some.inj h
      have haid : key a = pid := by simpa using ha
      have hax : (key a == key x) = true := by
        subst hap; simp [hk]
      rw [if_pos hax]
      apply List.find?_cons_of_pos (p := fun z => key z == pid)
      subst hap
      simp [hk, haid]
    · rw [List.find?_cons_of_neg (p := fun z => key z == pid) t
        (by simpa using ha)] at h
      have hp : key p = pid := by
        have := List.find?_some h
        simpa using this
      have hax : (key a == key x) = false := by
        have hxp : key x = pid := by rw [hk, hp]
        have : key a ≠ key x := by
          rw [hxp]; simpa using ha
        simpa using this
      rw [if_neg (by simp [hax])]
      rw [List.find?_cons_of_neg (p := fun z => key z == pid) _
        (by simpa using ha)]
      exact ih h

theorem find?_map_replace_ne {α : Type} (key : α → Nat) (pid : Nat)
    (l : List α) (x : α) (hk : key x ≠ pid) :
    (l.map (fun q => if key q == key x then x else q)).find?
      (fun z => key z == pid) = l.find? (fun z => key z == pid) := by
  induction l with
  | nil => simp
  | cons a t ih =>
    simp only [List.map_cons]
    by_cases ha : key a = key x
    · rw [if_pos (by simp [ha])]
      have hap : ¬ ((key a == pid) = true) := by
        rw [ha]; simpa using hk
      rw [List.find?_cons_of_neg (p := fun z => key z == pid) _
        (by simpa using hk),
        List.find?_cons_of_neg (p := fun z => key z == pid) _ hap]
      exact ih
    · rw [if_neg (by simpa using ha)]
      by_cases hap : (key a == pid) = true
      · rw [List.find?_cons_of_pos (p := fun z => key z == pid) _ hap,
          List.find?_cons_of_pos (p := fun z => key z == pid) _ hap]
      · rw [List.find?_cons_of_neg (p := fun z => key z == pid) _ hap,
          List.find?_cons_of_neg (p := fun z => key z == pid) _ hap]
        exact ih

theorem findProduct_setProduct_self (db : DBState) (pid : Nat)
    (p x : Product) (h : findProduct db pid = some p) (hk : x.id = p.id) :
    findProduct (setProduct db x) pid = some x := by
  have h2 : db.products.find? (fun z => z.id == pid) = some p := h
  exact find?_map_replace_self (fun q : Product => q.id) pid db.products p x h2 hk

theorem findProduct_setProduct_ne (db : DBState) (pid : Nat) (x : Product)
    (hk : x.id ≠ pid) :
    findProduct (setProduct db x) pid = findProduct db pid := by
  exact find?_map_replace_ne (fun q : Product => q.id) pid db.products x hk

theorem findOrder_setOrder_self (db : DBState) (oid : Nat) (o x : Order)
    (h : findOrder db oid = some o) (hk : x.id = o.id) :
    findOrder (setOrder db x) oid = some x := by
  have h2 : db.orders.find? (fun z => z.id == oid) = some o := h
  exact find?_map_replace_self (fun q : Order => q.id) oid db.orders o x h2 hk

theorem findProduct_id (db : DBState) (pid : Nat) (p : Product)
    (h : findProduct db pid = some p) : p.id = pid := by
  have := List.find?_some h
  simpa using this

theorem findOrder_id (db : DBState) (oid : Nat) (o : Order)
    (h : findOrder db oid = some o) : o.id = oid := by
  have := List.find?_some h
  simpa using this

/-! ### C9 helper lemmas -/

theorem productStock_reserve_ok (db : DBState) (pid : Nat) (q : Nat)
    (p : Product) (h : findProduct db pid = some p)
    (hq : (q : Int) ≤ p.stock) :
    reserveStock db pid q =
      .ok (setProduct db { p with stock := p.stock - (q : Int) }) := by
  unfold reserveStock
  rw [h]
  simp [not_lt.mpr hq]

theorem productStock_after_op (db : DBState) (pid : Nat) (op : StockOp)
    (s : Int) (h : productStock db pid = some s) :
    ∃ s2, productStock (stockOpApply db pid op) pid = some s2 ∧
      (0 ≤ s → 0 ≤ s2) := by
  obtain ⟨p, hp, hps⟩ : ∃ p, findProduct db pid = some p ∧ p.stock = s := by
    unfold productStock at h
    cases hfp : findProduct db pid with
    | none => rw [hfp] at h; simp at h
    | some p => rw [hfp] at h; simp at h; exact ⟨p, rfl, h⟩
  cases op with
  | reserve q =>
    by_cases hlt : p.stock < (q : Int)
    · refine ⟨s, ?_, fun h0 => h0⟩
      have : reserveStock db pid q =
          .error (.insufficientStock p.name q p.stock) := by
        unfold reserveStock; rw [hp]; simp [hlt]
      simp [stockOpApply, this, h]
    · have hres := productStock_reserve_ok db pid q p hp (not_lt.mp hlt)
      refine ⟨p.stock - (q : Int), ?_, ?_⟩
      · have hfind := findProduct_setProduct_self db pid p
          { p with stock := p.stock - (q : Int) } hp rfl
        simp [stockOpApply, hres, productStock, hfind]
      · intro _
        have := not_lt.mp hlt
        omega
  | release q =>
    have hfind := findProduct_setProduct_self db pid p
      { p with stock := p.stock + (q : Int) } hp rfl
    refine ⟨p.stock + (q : Int), ?_, ?_⟩
    · simp [stockOpApply, releaseStock, hp, productStock, hfind]
    · intro h0
      rw [← hps] at h0
      positivity

theorem reserveStock_ok_inv (db : DBState) (pid q : Nat) (db2 : DBState)
    (h : reserveStock db pid q = .ok db2) :
    ∃ p, findProduct db pid = some p ∧ (q : Int) ≤ p.stock ∧
      db2 = setProduct db { p with stock := p.stock - (q : Int) } := by
  unfold reserveStock at h
  split at h
  next hf => exact absurd h (by simp)
  next p hf =>
    split at h
    next hlt => exact absurd h (by simp)
    next hlt => exact ⟨p, hf, not_lt.mp hlt, (Except.ok.inj h).symm⟩

theorem reserveStock_error_unchanged (db : DBState) (pid q : Nat)
    (e : PyError) (h : reserveStock db pid q = .error e) :
    stockOpApply db pid (.reserve q) = db := by
  simp [stockOpApply, h]

/-- C9: for every sequence of reserve and release ledger calls on a product
whose stock is non-negative, the stock stays non-negative at every
observable point; a successful `reserve(q)` followed by `release(q)` on the
same product restores the stock to exactly its original value, and
`reserve(q)` does succeed whenever `stock ≥ q`. -/
theorem stock_reserve_release_spec (db : DBState) (pid : Nat) :
    (∀ ops : List StockOp, ∀ s : Int, productStock db pid = some s → 0 ≤ s →
      ∀ db2 ∈ stockStates db pid ops,
        ∃ s2, productStock db2 pid = some s2 ∧ 0 ≤ s2)
    ∧ (∀ q : Nat, ∀ db2, reserveStock db pid q = .ok db2 →
        productStock (releaseStock db2 pid q) pid = productStock db pid)
    ∧ (∀ q : Nat, ∀ p, findProduct db pid = some p → (q : Int) ≤ p.stock →
        ∃ db2, reserveStock db pid q = .ok db2) := by
  refine ⟨?_, ?_, ?_⟩
  · intro ops
    induction ops generalizing db with
    | nil => intro s _ _ db2 hmem; simp [stockStates] at hmem
    | cons op rest ih =>
      intro s hs h0 db2 hmem
      obtain ⟨s2, hs2, himp⟩ := productStock_after_op db pid op s hs
      simp only [stockStates, List.mem_cons] at hmem
      rcases hmem with rfl | hmem
      · exact ⟨s2, hs2, himp h0⟩
      · exact ih (stockOpApply db pid op) s2 hs2 (himp h0) db2 hmem
  · intro q db2 h
    obtain ⟨p, hp, hq, rfl⟩ := reserveStock_ok_inv db pid q db2 h
    have hid : p.id = pid := findProduct_id db pid p hp
    have hf2 := findProduct_setProduct_self db pid p
      { p with stock := p.stock - (q : Int) } hp rfl
    unfold releaseStock
    rw [hf2]
    have hf3 := findProduct_setProduct_self
      (setProduct db { p with stock := p.stock - (q : Int) }) pid
      { p with stock := p.stock - (q : Int) }
      { p with stock := p.stock - (q : Int) + (q : Int) } hf2 rfl
    unfold productStock
    rw [hf3, hp]
    simp
  · intro q p hp hq
    exact ⟨_, productStock_reserve_ok db pid q p hp hq⟩

/-- C9 witness: on a catalog with one product of stock 3, a reserve of 2
keeps the stock non-negative, the reserve succeeds, and releasing the same
quantity restores stock 3. -/
theorem stock_reserve_release_spec_witness :
    (∃ s2, productStock (stockOpApply exC9db 42 (StockOp.reserve 2)) 42 =
        some s2 ∧ 0 ≤ s2)
    ∧ productStock (releaseStock exC9dbAfter 42 2) 42 = productStock exC9db 42
    ∧ (∃ db2, reserveStock exC9db 42 2 = Except.ok db2) := by
  have h := stock_reserve_release_spec exC9db 42
  refine ⟨?_, ?_, ?_⟩
  · exact h.1 [StockOp.reserve 2] 3 rfl (by norm_num)
      (stockOpApply exC9db 42 (StockOp.reserve 2)) (by simp [stockStates])
  · exact h.2.1 2 exC9dbAfter rfl
  · exact h.2.2 2 ⟨42, 1, "Water", 5, 3⟩ rfl (by norm_num)

/-- C1 counterexample: on an order whose status is `assigned` with an
assignment 1200 seconds old (well past the 10-minute expiry window), the
claim says a different driver may steal the stale assignment, but
`accept_order_atomic` rejects every order outside {pending, confirmed} with
a BadRequest — the code has no expiry-based stealing path. -/
theorem accept_steal_counterexample :
    exC1order.status = OrderStatus.assigned ∧
    ((1200 : Int) - 0 > 600) ∧
    findOrder exC1db 1 = some exC1order ∧
    acceptOrderAtomic exC1db 1 2 1200 =
      .error (.badRequest "Cannot accept order in status assigned") := by
  refine ⟨rfl, by norm_num, rfl, rfl⟩

/-- C1 (amended): on an existing order, `accept_order_atomic` succeeds
exactly when the status is pending or confirmed and the driver reference is
falsy or already equal to the calling driver; on success it commits the
driver reference, status `assigned` and `assigned_at = now`; every failure
is a BadRequest and, the transaction being rolled back, mutates nothing.
There is no expiry-based acceptance of stale `assigned` orders. -/
theorem accept_order_atomic_spec (db : DBState) (oid did : Nat) (now : Int)
    (o : Order) (h : findOrder db oid = some o) :
    (acceptOrderAtomic db oid did now =
        .ok (setOrder db { o with
          driverId := some did
          status := .assigned
          assignedAt := some now })
      ↔ ((o.status = .pending ∨ o.status = .confirmed) ∧
         (truthy o.driverId = false ∨ o.driverId = some did)))
    ∧ (∀ e, acceptOrderAtomic db oid did now = .error e →
        ∃ m, e = PyError.badRequest m) := by
  have hred : acceptOrderAtomic db oid did now =
      (if ¬ (o.status = .pending ∨ o.status = .confirmed) then
        Except.error (.badRequest ("Cannot accept order in status " ++
          statusValue o.status))
      else if truthy o.driverId ∧ o.driverId ≠ some did then
        Except.error (.badRequest "Order already assigned to another driver")
      else
        Except.ok (setOrder db { o with
          driverId := some did
          status := .assigned
          assignedAt := some now })) := by
    unfold acceptOrderAtomic
    rw [h]
  rw [hred]
  by_cases hs : o.status = .pending ∨ o.status = .confirmed
  · rw [if_neg (not_not_intro hs)]
    by_cases hd : truthy o.driverId ∧ o.driverId ≠ some did
    · rw [if_pos hd]
      refine ⟨⟨fun hcon => absurd hcon (by simp), ?_⟩, ?_⟩
      · rintro ⟨-, hdr | hdr⟩
        · exact absurd hd.1 (by simp [hdr])
        · exact absurd hdr hd.2
      · intro e he
        exact ⟨_, (Except.error.inj he).symm⟩
    · rw [if_neg hd]
      refine ⟨⟨fun _ => ⟨hs, ?_⟩, fun _ => rfl⟩, ?_⟩
      · rcases not_and_or.mp hd with hd1 | hd2
        · exact Or.inl (by simpa using hd1)
        · exact Or.inr (not_not.mp hd2)
      · intro e he
        exact absurd he (by simp)
  · rw [if_pos hs]
    refine ⟨⟨fun hcon => absurd hcon (by simp), fun hc => absurd hc.1 hs⟩, ?_⟩
    intro e he
    exact ⟨_, (Except.error.inj he).symm⟩

/-- C1 witness: a driver accepts an unassigned confirmed order and the
success branch of the amended theorem fires. -/
theorem accept_order_atomic_spec_witness :
    acceptOrderAtomic exC1okDb 1 5 100 =
      .ok (setOrder exC1okDb { exC1okOrder with
        driverId := some 5
        status := .assigned
        assignedAt := some 100 }) :=
  ((accept_order_atomic_spec exC1okDb 1 5 100 exC1okOrder rfl).1).mpr
    (by simp [exC1okOrder, truthy])

theorem acceptOrderAtomic_some (db : DBState) (oid did : Nat) (now : Int)
    (o : Order) (h : findOrder db oid = some o) :
    acceptOrderAtomic db oid did now =
      (if ¬ (o.status = .pending ∨ o.status = .confirmed) then
        Except.error (.badRequest ("Cannot accept order in status " ++
          statusValue o.status))
      else if truthy o.driverId ∧ o.driverId ≠ some did then
        Except.error (.badRequest "Order already assigned to another driver")
      else
        Except.ok (setOrder db { o with
          driverId := some did
          status := .assigned
          assignedAt := some now })) := by
  unfold acceptOrderAtomic
  rw [h]

theorem accept_ok_of_fresh (db : DBState) (oid did : Nat) (now : Int)
    (o : Order) (h : findOrder db oid = some o)
    (hs : o.status = .pending ∨ o.status = .confirmed)
    (hd : truthy o.driverId = false) :
    acceptOrderAtomic db oid did now =
      .ok (setOrder db { o with
        driverId := some did
        status := .assigned
        assignedAt := some now }) := by
  rw [acceptOrderAtomic_some db oid did now o h]
  rw [if_neg (not_not_intro hs)]
  rw [if_neg (by simp [hd])]

theorem accept_error_of_assigned (db : DBState) (oid did : Nat) (now : Int)
    (o : Order) (h : findOrder db oid = some o)
    (hs : o.status = .assigned) :
    acceptOrderAtomic db oid did now =
      .error (.badRequest "Cannot accept order in status assigned") := by
  rw [acceptOrderAtomic_some db oid did now o h]
  rw [if_pos (by simp [hs])]
  rw [hs]
  rfl

theorem acceptResults_all_fail (oid : Nat) (now : Int) (ds : List Nat) :
    ∀ db : DBState, ∀ o : Order, findOrder db oid = some o →
    o.status = .assigned →
    acceptResults db oid now ds =
      (ds.map (fun _ =>
        Except.error (PyError.badRequest
          "Cannot accept order in status assigned")), db) := by
  induction ds with
  | nil => intro db o _ _; rfl
  | cons d t ih =>
    intro db o h hs
    have he := accept_error_of_assigned db oid d now o h hs
    simp [acceptResults, he, ih db o h hs]

/-- C5: any number of `accept` calls racing on one unassigned order, as
serialized by the exclusive row lock, produce exactly one success (the
first call on an arbitrary interleaving order); every other call returns a
BadRequest, and the order ends with exactly the winning driver reference
set.  Since an order carries a single nullable driver column, at most one
driver holds the assignment at any point of the sequence. -/
theorem concurrent_accept_exactly_one (db : DBState) (oid : Nat) (now : Int)
    (o : Order) (d : Nat) (ds : List Nat)
    (h : findOrder db oid = some o)
    (hs : o.status = .pending ∨ o.status = .confirmed)
    (hd : truthy o.driverId = false) :
    ((acceptResults db oid now (d :: ds)).1).countP isOkResult = 1 ∧
    ((acceptResults db oid now (d :: ds)).1).head? = some (Except.ok ()) ∧
    (∀ x ∈ ((acceptResults db oid now (d :: ds)).1).tail,
      x = Except.error (PyError.badRequest
        "Cannot accept order in status assigned")) ∧
    findOrder (acceptResults db oid now (d :: ds)).2 oid =
      some { o with
        driverId := some d
        status := .assigned
        assignedAt := some now } := by
  have hok := accept_ok_of_fresh db oid d now o h hs hd
  have h2 : findOrder (setOrder db { o with
      driverId := some d
      status := .assigned
      assignedAt := some now }) oid = some { o with
      driverId := some d
      status := .assigned
      assignedAt := some now } :=
    findOrder_setOrder_self db oid o _ h rfl
  have hall := acceptResults_all_fail oid now ds _ _ h2 rfl
  have hrec : acceptResults db oid now (d :: ds) =
      (Except.ok () :: (ds.map (fun _ =>
        Except.error (PyError.badRequest
          "Cannot accept order in status assigned"))),
       setOrder db { o with
         driverId := some d
         status := .assigned
         assignedAt := some now }) := by
    simp [acceptResults, hok, hall]
  rw [hrec]
  refine ⟨?_, rfl, ?_, h2⟩
  · have hz : (ds.map (fun _ =>
        Except.error (α := Unit) (PyError.badRequest
          "Cannot accept order in status assigned"))).countP isOkResult = 0 := by
      rw [List.countP_eq_zero]
      intro a ha
      rcases List.mem_map.mp ha with ⟨b, -, rfl⟩
      simp [isOkResult]
    rw [List.countP_cons_of_pos _ _ (by simp [isOkResult])]
    rw [hz]
  · intro x hx
    rcases List.mem_map.mp hx with ⟨b, -, rfl⟩
    rfl

/-- C5 witness: drivers 5 and 6 race on an unassigned confirmed order;
exactly one call succeeds and driver 5 ends up holding the order. -/
theorem concurrent_accept_exactly_one_witness :
    ((acceptResults exC1okDb 1 100 [5, 6]).1).countP isOkResult = 1 ∧
    ((acceptResults exC1okDb 1 100 [5, 6]).1).head? = some (Except.ok ()) ∧
    (∀ x ∈ ((acceptResults exC1okDb 1 100 [5, 6]).1).tail,
      x = Except.error (PyError.badRequest
        "Cannot accept order in status assigned")) ∧
    findOrder (acceptResults exC1okDb 1 100 [5, 6]).2 1 =
      some { exC1okOrder with
        driverId := some 5
        status := .assigned
        assignedAt := some 100 } :=
  concurrent_accept_exactly_one exC1okDb 1 100 exC1okOrder 5 [6] rfl
    (Or.inr rfl) rfl

/-- C3 counterexample: an administrator requests `pending → delivered`, a
transition outside the role-keyed table of the claim.  The code does fail
and does not mutate, but with a Python `AttributeError` over the
nonexistent enum member `OrderStatus.canceled` — not with
`InvalidTransition(current, requested)`; `InvalidOrderStatusError` is never
raised anywhere in the service. -/
theorem update_status_invalid_transition_counterexample :
    findOrder exC3db 1 = some exC3order ∧
    exC3order.status = OrderStatus.pending ∧
    updateOrderStatus exC3db 1 "delivered" =
      .error (.attributeError "canceled") ∧
    isInvalidTransitionError (updateOrderStatus exC3db 1 "delivered") = false := by
  exact ⟨rfl, rfl, rfl, rfl⟩

/-- C3 (amended): every status-update request through
`update_order_status` on an existing order fails and mutates nothing, for
any actor: an unknown status string fails with `BadRequest("Invalid
status: ...")`, and every valid status value fails with `AttributeError`
because line 350 reads the nonexistent enum member `OrderStatus.canceled`.
No role-keyed transition table is consulted and `InvalidTransition` is
never raised. -/
theorem update_order_status_always_fails (db : DBState) (oid : Nat)
    (s : String) (o : Order) (h : findOrder db oid = some o) :
    (updateOrderStatus db oid s =
        .error (.badRequest ("Invalid status: " ++ s)) ∧
      OrderStatus.ofValue s = none) ∨
    (updateOrderStatus db oid s = .error (.attributeError "canceled") ∧
      (OrderStatus.ofValue s).isSome = true) := by
  unfold updateOrderStatus
  rw [h]
  cases hv : OrderStatus.ofValue s with
  | none => exact Or.inl ⟨rfl, rfl⟩
  | some st => exact Or.inr ⟨rfl, rfl⟩

/-- C3 witness: a driver-style transition `assigned → picked_up` on a
pending order (and indeed on any order) fails with the AttributeError
branch of the amended theorem. -/
theorem update_order_status_always_fails_witness :
    (updateOrderStatus exC3db 1 "picked_up" =
        .error (.badRequest ("Invalid status: " ++ "picked_up")) ∧
      OrderStatus.ofValue "picked_up" = none) ∨
    (updateOrderStatus exC3db 1 "picked_up" =
        .error (.attributeError "canceled") ∧
      (OrderStatus.ofValue "picked_up").isSome = true) :=
  update_order_status_always_fails exC3db 1 "picked_up" exC3order rfl

/-- C4: cancelling an order releases no stock on either cancellation path.
The service path `update_order_status(1, "cancelled")` raises
`AttributeError` at the `OrderStatus.canceled` comparison before its
release branch can run, and the admin endpoint commits the cancellation
while leaving product 42 at stock 2 (the claim requires it restored to 5)
and leaving `assigned_at` set. -/
theorem cancel_order_stock_not_released :
    updateOrderStatus exC4db 1 "cancelled" =
      .error (.attributeError "canceled") ∧
    productStock exC4db 42 = some 2 ∧
    adminCancelOrder exC4db UserRole.admin 1 = .ok exC4dbAfterCancel ∧
    productStock exC4dbAfterCancel 42 = some 2 ∧
    findOrder exC4dbAfterCancel 1 =
      some { exC4order with status := .cancelled, driverId := none } ∧
    ({ exC4order with status := .cancelled, driverId := none } : Order).assignedAt
      = some 100 := by
  exact ⟨rfl, rfl, rfl, rfl, rfl, rfl⟩

/-- C8: one concrete run of the reclaim sweep body at t = 700 over a stale
assigned order (assigned at t = 0), a fresh assigned order (t = 650) and a
pending order: exactly the stale order is reverted — driver cleared,
status back to `confirmed`, `assigned_at` cleared — the other two are
untouched, and the reverted order is immediately acceptable by a driver
again.  (The task module itself never loads in the deployed program; see
the doc comment of `reclaimExpiredAssignments`.) -/
theorem reclaim_run_concrete :
    reclaimExpiredAssignments exC8db 700 = (exC8dbAfter, 1) ∧
    findOrder exC8dbAfter 1 =
      some { exC8o1 with driverId := none, status := .confirmed, assignedAt := none } ∧
    findOrder exC8dbAfter 2 = some exC8o2 ∧
    findOrder exC8dbAfter 3 = some exC8o3 ∧
    acceptOrderAtomic exC8dbAfter 1 9 800 =
      .ok (setOrder exC8dbAfter { (revertOrder exC8o1) with
        driverId := some 9
        status := .assigned
        assignedAt := some 800 }) := by
  exact ⟨rfl, rfl, rfl, rfl, rfl⟩

/-- C10: a driver at or above three active deliveries (status assigned or
in_transit) is rejected by the drivers accept-order endpoint with the
maximum-concurrent-deliveries BadRequest before any assignment is
attempted; a driver below the cap passes the check and the request reduces
to the plain atomic accept; and the orders-router accept endpoint enforces
no such cap — driver 7, already holding three active deliveries, succeeds
through it. -/
theorem driver_cap_spec :
    (∀ db : DBState, ∀ d oid : Nat, ∀ now : Int,
      3 ≤ activeDeliveries db d →
      driversAcceptOrder db d oid now = .error (.badRequest
        "You have reached the maximum number of concurrent deliveries")) ∧
    (∀ db : DBState, ∀ d oid : Nat, ∀ now : Int,
      activeDeliveries db d < 3 →
      driversAcceptOrder db d oid now = acceptOrderAtomic db oid d now) ∧
    ordersAcceptOrder exC10db .driver 7 4 100 = .ok exC10dbAfter := by
  refine ⟨?_, ?_, ?_⟩
  · intro db d oid now hcap
    have hb : checkDriverAvailability db d = false := by
      simp only [checkDriverAvailability, decide_eq_false_iff_not, not_lt]
      exact hcap
    unfold driversAcceptOrder
    rw [if_pos hb]
  · intro db d oid now hcap
    have hb : checkDriverAvailability db d = true := by
      simp only [checkDriverAvailability, decide_eq_true_eq]
      exact hcap
    unfold driversAcceptOrder
    rw [if_neg (by simp [hb])]
  · rfl

/-- C10 witness: driver 7 (three active deliveries) is rejected by the
drivers endpoint on the same database where the orders endpoint lets the
fourth acceptance through, and driver 5 with zero active deliveries passes
the availability check. -/
theorem driver_cap_spec_witness :
    driversAcceptOrder exC10db 7 4 100 = .error (.badRequest
      "You have reached the maximum number of concurrent deliveries") ∧
    driversAcceptOrder exC1okDb 5 1 100 = acceptOrderAtomic exC1okDb 1 5 100 := by
  constructor
  · exact driver_cap_spec.1 exC10db 7 4 100 (by decide)
  · exact driver_cap_spec.2.1 exC1okDb 5 1 100 (by decide)

theorem find?_append_none {α : Type} (p : α → Bool) (l : List α) (x : α)
    (h : l.find? p = none) (hx : p x = true) :
    (l ++ [x]).find? p = some x := by
  induction l with
  | nil =>
    rw [List.nil_append]
    exact List.find?_cons_of_pos _ hx
  | cons a t ih =>
    by_cases ha : p a = true
    · rw [List.find?_cons_of_pos _ ha] at h
      exact absurd h (by simp)
    · rw [List.find?_cons_of_neg _ (by simpa using ha)] at h
      rw [List.cons_append, List.find?_cons_of_neg _ (by simpa using ha)]
      exact ih h

/-- C6 counterexample: a stored idempotency record created at t = 0 is
still replayed verbatim ten years later (now = 315360000 s) and the
handler is not re-invoked — there is no TTL check in the middleware, so a
record never expires, contradicting the claim that an expired record makes
the business logic execute again. -/
theorem idempotency_ttl_counterexample :
    ((315360000 : Int) - exC6rec.createdAt ≥ 315360000) ∧
    idemDispatch [exC6rec] "abc" 315360000 (200, "fresh-handler-result") =
      ((201, "orders-created-v1"), [exC6rec], false) := by
  exact ⟨by norm_num [exC6rec], rfl⟩

/-- C6 (amended): when a stored record exists for the fingerprint, its
status and body are returned verbatim and the handler (the Order Composer)
is not invoked, whatever the record age — the middleware never applies a
TTL; when none exists, the handler runs and its response is persisted
under the fingerprint, so a second submission with the same key replays
the first response byte for byte without running the handler again. -/
theorem idempotency_replay_spec (records : List IdemRecord) (k : String)
    (now now2 : Int) (h h2 : Nat × String) :
    (∀ r, findIdemRecord records k = some r →
      idemDispatch records k now h = ((r.statusCode, r.body), records, false)) ∧
    (findIdemRecord records k = none →
      idemDispatch records k now h =
        ((h.1, h.2),
         records ++ [{ keyHash := k, statusCode := h.1
                       body := h.2, createdAt := now }],
         true)) ∧
    (findIdemRecord records k = none →
      idemDispatch (idemDispatch records k now h).2.1 k now2 h2 =
        ((idemDispatch records k now h).1,
         (idemDispatch records k now h).2.1, false)) := by
  refine ⟨?_, ?_, ?_⟩
  · intro r hr
    unfold idemDispatch
    rw [hr]
  · intro hn
    unfold idemDispatch
    rw [hn]
  · intro hn
    have h1 : idemDispatch records k now h =
        ((h.1, h.2),
         records ++ [{ keyHash := k, statusCode := h.1
                       body := h.2, createdAt := now }],
         true) := by
      unfold idemDispatch
      rw [hn]
    rw [h1]
    have hf : findIdemRecord
        (records ++ [{ keyHash := k, statusCode := h.1
                       body := h.2, createdAt := now }]) k =
        some { keyHash := k, statusCode := h.1
               body := h.2, createdAt := now } :=
      find?_append_none _ records _ hn (by simp)
    unfold idemDispatch
    rw [hf]

/-- C6 witness: a request whose key already has a stored record gets the
stored 201 response replayed, and a fresh key runs the handler and is
recorded. -/
theorem idempotency_replay_spec_witness :
    idemDispatch [exC6rec] "abc" 50 (200, "second-attempt") =
      ((exC6rec.statusCode, exC6rec.body), [exC6rec], false) ∧
    idemDispatch [] "new-key" 60 (201, "first-run") =
      ((201, "first-run"),
       [{ keyHash := "new-key", statusCode := 201
          body := "first-run", createdAt := 60 }],
       true) := by
  constructor
  · exact (idempotency_replay_spec [exC6rec] "abc" 50 50
      (200, "second-attempt") (200, "second-attempt")).1 exC6rec rfl
  · exact (idempotency_replay_spec [] "new-key" 60 60
      (201, "first-run") (201, "first-run")).2.1 rfl

theorem cacheGet_del_of_mem (c : Cache) (ks : List String) (k : String)
    (hk : k ∈ ks) : cacheGet (cacheDel c ks) k = none := by
  unfold cacheGet cacheDel
  have : (c.filter (fun kv => !ks.contains kv.1)).find?
      (fun kv => kv.1 == k) = none := by
    rw [List.find?_eq_none]
    intro kv hkv hbeq
    have hmem := (List.mem_filter.mp hkv).2
    have hne : kv.1 ∉ ks := by simpa using hmem
    have : kv.1 = k := by simpa using hbeq
    exact hne (this ▸ hk)
  rw [this]
  rfl

/-- C7 counterexample: order 1 is cached while pending; the admin
cancellation endpoint commits status `cancelled` without touching any
cache key, so the very next read of the order is served from the cache and
still reports status "pending" while the source of truth says
`cancelled`. -/
theorem admin_cancel_stale_read_counterexample :
    adminCancelOrderCached exC7db exC7cache .admin 1 =
      .ok (exC7dbAfter, exC7cache) ∧
    findOrder exC7dbAfter 1 = some { exC7order with status := .cancelled } ∧
    getOrderCached exC7dbAfter exC7cache 1 =
      .ok (serializeOrder exC7order, exC7cache) ∧
    (serializeOrder exC7order).status = "pending" ∧
    statusValue OrderStatus.cancelled = "cancelled" := by
  exact ⟨rfl, rfl, rfl, rfl, rfl⟩

/-- C7 (amended): writes that go through the service layer invalidate the
entity key and the order aggregate keys before returning — e.g. after a
successful driver acceptance the cached order entry is gone, so the very
next read of that order misses the cache and returns the committed
post-update row; the admin router cancel/confirm endpoints perform no
invalidation, so reads within the TTL window can return the stale
pre-update snapshot. -/
theorem service_write_invalidation_spec (db : DBState) (c : Cache)
    (oid did : Nat) (now : Int) (db2 : DBState) (c2 : Cache)
    (h : acceptOrderAtomicCached db c oid did now = .ok (db2, c2)) :
    ∃ o2 : Order, findOrder db2 oid = some o2 ∧
      o2.driverId = some did ∧ o2.status = .assigned ∧
      o2.assignedAt = some now ∧
      cacheGet c2 (orderKey oid) = none ∧
      getOrderCached db2 c2 oid =
        .ok (serializeOrder o2,
          cacheSet c2 (orderKey oid) (.orderVal (serializeOrder o2))) := by
  unfold acceptOrderAtomicCached at h
  split at h
  next => exact absurd h (by simp)
  next o hfo =>
    split at h
    next e hacc => exact absurd h (by simp)
    next db2x hacc =>
      have hpair := Prod.mk.injEq .. ▸ (Except.ok.inj h)
      have hdb : db2x = db2 := congrArg Prod.fst (Except.ok.inj h)
      have hc : invalidateOrderFlow c oid o.userId = c2 :=
        congrArg Prod.snd (Except.ok.inj h)
      rw [acceptOrderAtomic_some db oid did now o hfo] at hacc
      split at hacc
      next => exact absurd hacc (by simp)
      next hsok =>
        split at hacc
        next => exact absurd hacc (by simp)
        next hdok =>
          have hdb2 : db2 = setOrder db { o with
              driverId := some did
              status := .assigned
              assignedAt := some now } := by
            rw [← hdb]
            exact (Except.ok.inj hacc).symm
          refine ⟨{ o with
              driverId := some did
              status := .assigned
              assignedAt := some now }, ?_, rfl, rfl, rfl, ?_, ?_⟩
          · rw [hdb2]
            exact findOrder_setOrder_self db oid o _ hfo rfl
          · rw [← hc]
            unfold invalidateOrderFlow
            exact cacheGet_del_of_mem c _ (orderKey oid) (by simp)
          · have hnone : cacheGet c2 (orderKey oid) = none := by
              rw [← hc]
              unfold invalidateOrderFlow
              exact cacheGet_del_of_mem c _ (orderKey oid) (by simp)
            have hfind : findOrder db2 oid = some { o with
                driverId := some did
                status := .assigned
                assignedAt := some now } := by
              rw [hdb2]
              exact findOrder_setOrder_self db oid o _ hfo rfl
            unfold getOrderCached
            rw [hnone, hfind]

/-- C7 witness: driver 5 accepts order 1 with an empty cache; the next
read returns the freshly committed assigned order. -/
theorem service_write_invalidation_spec_witness :
    ∃ o2 : Order, findOrder exC7accDb 1 = some o2 ∧
      o2.driverId = some 5 ∧ o2.status = .assigned ∧
      o2.assignedAt = some 100 ∧
      cacheGet [] (orderKey 1) = none ∧
      getOrderCached exC7accDb [] 1 =
        .ok (serializeOrder o2,
          cacheSet [] (orderKey 1) (.orderVal (serializeOrder o2))) :=
  service_write_invalidation_spec exC1okDb [] 1 5 100 exC7accDb [] rfl

theorem validateItems_ok_mem (db : DBState) :
    ∀ cart v, validateItems db cart = .ok v →
    (∀ x ∈ v, findProduct db x.1.id = some x.1 ∧ (x.2 : Int) ≤ x.1.stock) ∧
    v.map (fun x => x.1.id) = cart.map Prod.fst := by
  intro cart
  induction cart with
  | nil =>
    intro v h
    have hv : v = [] := (Except.ok.inj h).symm
    subst hv
    exact ⟨by intro x hx; simp at hx, rfl⟩
  | cons hd tl ih =>
    intro v h
    obtain ⟨pid, qty⟩ := hd
    unfold validateItems at h
    split at h
    next => exact absurd h (by simp)
    next product hf =>
      split at h
      next => exact absurd h (by simp)
      next hlt =>
        split at h
        next e herr => exact absurd h (by simp)
        next v2 hok =>
          have hv : v = (product, qty) :: v2 := (Except.ok.inj h).symm
          subst hv
          obtain ⟨ih1, ih2⟩ := ih v2 hok
          have hpid : product.id = pid := findProduct_id db pid product hf
          constructor
          · intro x hx
            rcases List.mem_cons.mp hx with rfl | hx2
            · exact ⟨by rw [hpid]; exact hf, not_lt.mp hlt⟩
            · exact ih1 x hx2
          · simp only [List.map_cons]
            rw [ih2, hpid]

theorem validateItems_cons_none (db : DBState) (pid qty : Nat)
    (rest : List CartLine) (hf : findProduct db pid = none) :
    validateItems db ((pid, qty) :: rest) =
      .error (.notFound "Product" pid) := by
  conv_lhs => unfold validateItems
  rw [hf]

theorem validateItems_cons_some (db : DBState) (pid qty : Nat)
    (rest : List CartLine) (product : Product)
    (hf : findProduct db pid = some product) :
    validateItems db ((pid, qty) :: rest) =
      (if product.stock < (qty : Int) then
        Except.error (.insufficientStock product.name qty product.stock)
      else
        match validateItems db rest with
        | .error e => .error e
        | .ok v => .ok ((product, qty) :: v)) := by
  conv_lhs => unfold validateItems
  rw [hf]

theorem validateItems_error_of_fail (db : DBState) :
    ∀ cart : List CartLine, ∀ pid qty : Nat, (pid, qty) ∈ cart →
    lineFails db pid qty → ∃ e, validateItems db cart = .error e := by
  intro cart
  induction cart with
  | nil => intro pid qty h _; simp at h
  | cons hd tl ih =>
    intro pid qty hmem hfail
    obtain ⟨pid0, qty0⟩ := hd
    cases hf : findProduct db pid0 with
    | none =>
      exact ⟨.notFound "Product" pid0, validateItems_cons_none db pid0 qty0 tl hf⟩
    | some product =>
      by_cases hlt : product.stock < (qty0 : Int)
      · refine ⟨.insufficientStock product.name qty0 product.stock, ?_⟩
        rw [validateItems_cons_some db pid0 qty0 tl product hf, if_pos hlt]
      · rcases List.mem_cons.mp hmem with heq | hmem2
        · injection heq with h1 h2
          subst h1
          subst h2
          rcases hfail with hnone | ⟨p, hp, hplt⟩
          · rw [hf] at hnone
            exact absurd hnone (by simp)
          · rw [hf] at hp
            rw [← Option.some.inj hp] at hplt
            exact absurd hplt hlt
        · obtain ⟨e, he⟩ := ih pid qty hmem2 hfail
          refine ⟨e, ?_⟩
          rw [validateItems_cons_some db pid0 qty0 tl product hf,
            if_neg hlt, he]

theorem insertByStore_perm (x : Product × Nat) (l : List (Product × Nat)) :
    List.Perm (insertByStore x l) (x :: l) := by
  induction l with
  | nil => exact List.Perm.refl _
  | cons y ys ih =>
    unfold insertByStore
    by_cases h : y.1.storeId ≤ x.1.storeId
    · rw [if_pos h]
      exact (ih.cons y).trans (List.Perm.swap x y ys)
    · rw [if_neg h]

theorem sortByStore_perm (l : List (Product × Nat)) :
    List.Perm (sortByStore l) l := by
  induction l with
  | nil => exact List.Perm.refl _
  | cons x xs ih =>
    unfold sortByStore
    exact (insertByStore_perm x (sortByStore xs)).trans (ih.cons x)

theorem pyGroupBy_flatten : ∀ n : Nat, ∀ l : List (Product × Nat),
    l.length ≤ n → (pyGroupBy l).flatten = l := by
  intro n
  induction n with
  | zero =>
    intro l hl
    have : l = [] := List.eq_nil_of_length_eq_zero (Nat.le_zero.mp hl)
    subst this
    simp [pyGroupBy]
  | succ n ih =>
    intro l hl
    match l with
    | [] => simp [pyGroupBy]
    | x :: xs =>
      have hdrop : (xs.dropWhile (sameStore x)).length ≤ n := by
        have h1 : (xs.dropWhile (sameStore x)).length ≤ xs.length :=
          (List.dropWhile_sublist (sameStore x)).length_le
        simp only [List.length_cons] at hl
        omega
      have ih2 := ih _ hdrop
      rw [pyGroupBy]
      rw [List.flatten_cons, ih2, List.cons_append,
        List.takeWhile_append_dropWhile]

theorem findProduct_withOrders (db : DBState) (os : List Order) (pid : Nat) :
    findProduct { db with orders := os } pid = findProduct db pid := rfl

theorem reserveInSession_ok (s : Session) (p : Product) (q : Nat)
    (hf : findProduct s.committed p.id = some p) (hq : (q : Int) ≤ p.stock) :
    reserveInSession s p.id q = .ok
      { committed :=
          { setProduct s.committed { p with stock := p.stock - (q : Int) } with
            orders := (setProduct s.committed
              { p with stock := p.stock - (q : Int) }).orders
              ++ s.pendingOrders }
        pendingOrders := [] } := by
  unfold reserveInSession
  rw [productStock_reserve_ok s.committed p.id q p hf hq]

theorem reserveGroup_ok : ∀ g : List (Product × Nat), ∀ s : Session,
    (∀ x ∈ g, findProduct s.committed x.1.id = some x.1 ∧
      (x.2 : Int) ≤ x.1.stock) →
    (g.map (fun x => x.1.id)).Nodup →
    ∃ s2, reserveGroup s g = .ok s2 ∧
      (∀ pid, pid ∉ g.map (fun x => x.1.id) →
        findProduct s2.committed pid = findProduct s.committed pid) := by
  intro g
  induction g with
  | nil => intro s _ _; exact ⟨s, rfl, fun _ _ => rfl⟩
  | cons x rest ih =>
    intro s hall hnd
    obtain ⟨hf, hq⟩ := hall x (List.mem_cons_self x rest)
    obtain ⟨s1, hs1, hs1find⟩ : ∃ s1,
        reserveInSession s x.1.id x.2 = .ok s1 ∧
        ∀ pid, pid ≠ x.1.id →
          findProduct s1.committed pid = findProduct s.committed pid := by
      refine ⟨_, reserveInSession_ok s x.1 x.2 hf hq, ?_⟩
      intro pid hne
      show findProduct { setProduct s.committed
          { x.1 with stock := x.1.stock - (x.2 : Int) } with
          orders := _ } pid = _
      rw [findProduct_withOrders]
      exact findProduct_setProduct_ne s.committed pid _ (Ne.symm hne)
    have hrest : ∀ y ∈ rest, findProduct s1.committed y.1.id = some y.1 ∧
        (y.2 : Int) ≤ y.1.stock := by
      intro y hy
      have hxid : x.1.id ∉ rest.map (fun z => z.1.id) :=
        (List.nodup_cons.mp hnd).1
      have hyne : y.1.id ≠ x.1.id := by
        intro hcon
        exact hxid (hcon ▸ List.mem_map_of_mem _ hy)
      obtain ⟨hfy, hqy⟩ := hall y (List.mem_cons_of_mem x hy)
      exact ⟨by rw [hs1find y.1.id hyne]; exact hfy, hqy⟩
    obtain ⟨s2, hs2, hs2find⟩ := ih s1 hrest (List.nodup_cons.mp hnd).2
    refine ⟨s2, ?_, ?_⟩
    · show (match reserveInSession s x.1.id x.2 with
        | Except.error e => Except.error e
        | Except.ok s2 => reserveGroup s2 rest) = Except.ok s2
      rw [hs1]
      exact hs2
    · intro pid hpid
      have hpid1 : pid ∉ rest.map (fun z => z.1.id) :=
        fun hc => hpid (List.mem_cons_of_mem _ hc)
      have hpidx : pid ≠ x.1.id :=
        fun hc => hpid (hc ▸ List.mem_cons_self _ _)
      rw [hs2find pid hpid1, hs1find pid hpidx]

theorem processGroups_ok (uid : Nat) :
    ∀ groups : List (List (Product × Nat)), ∀ fid : Nat, ∀ s : Session,
    (∀ x ∈ groups.flatten, findProduct s.committed x.1.id = some x.1 ∧
      (x.2 : Int) ≤ x.1.stock) →
    (groups.flatten.map (fun x => x.1.id)).Nodup →
    ∃ s2, processGroups uid fid s groups = .ok s2 := by
  intro groups
  induction groups with
  | nil => intro fid s _ _; exact ⟨s, rfl⟩
  | cons g rest ih =>
    intro fid s hall hnd
    rw [List.flatten_cons] at hall hnd
    rw [List.map_append] at hnd
    obtain ⟨hndg, hndrest, hdisj⟩ := List.nodup_append.mp hnd
    have hg : ∀ x ∈ g, findProduct s.committed x.1.id = some x.1 ∧
        (x.2 : Int) ≤ x.1.stock :=
      fun x hx => hall x (List.mem_append_left _ hx)
    obtain ⟨s1, hs1, hs1find⟩ := reserveGroup_ok g s hg hndg
    have hrest : ∀ x ∈ rest.flatten,
        findProduct s1.committed x.1.id = some x.1 ∧
        (x.2 : Int) ≤ x.1.stock := by
      intro x hx
      have hxin : x.1.id ∈ rest.flatten.map (fun z => z.1.id) :=
        List.mem_map_of_mem _ hx
      have hxg : x.1.id ∉ g.map (fun z => z.1.id) :=
        fun hc => (hdisj hc) hxin
      obtain ⟨hfx, hqx⟩ := hall x (List.mem_append_right _ hx)
      exact ⟨by rw [hs1find x.1.id hxg]; exact hfx, hqx⟩
    obtain ⟨s2, hs2⟩ := ih (fid + 1)
      { s1 with pendingOrders := s1.pendingOrders ++
          [{ id := fid, userId := uid, storeId := groupStoreId g
             driverId := none, status := .pending
             totalPrice := groupTotal g, assignedAt := none
             items := buildOrderItems g }] } hrest hndrest
    refine ⟨s2, ?_⟩
    show (match reserveGroup s g with
      | Except.error e => Except.error e
      | Except.ok s3 => processGroups uid (fid + 1)
          { s3 with pendingOrders := s3.pendingOrders ++
              [{ id := fid, userId := uid, storeId := groupStoreId g
                 driverId := none, status := OrderStatus.pending
                 totalPrice := groupTotal g, assignedAt := none
                 items := buildOrderItems g }] } rest) = Except.ok s2
    rw [hs1]
    exact hs2

/-- C2: for every cart with pairwise distinct product ids (the invariant
the `OrderCreate` schema validator guarantees before `create_order` runs):
whenever `create_order` fails, the database it leaves behind is exactly
the one it started from — no stock mutated anywhere, no Order or
OrderItem row created, across the whole multi-merchant cart; and whenever
any cart line fails pre-validation (missing product, or stock below the
requested quantity), the whole operation does abort with such an error.
(The pre-validation pass checks every line before any reservation, and
with distinct product ids a line that passed it cannot fail during the
reservation phase, so the mid-flight commits inside `reserve_stock` are
never followed by a raise.) -/
theorem create_order_all_or_nothing (db : DBState) (uid : Nat)
    (cart : List CartLine) (fid : Nat)
    (hnd : (cart.map Prod.fst).Nodup) :
    (∀ e db2, createOrder db uid cart fid = .error (e, db2) → db2 = db) ∧
    (∀ pid qty, (pid, qty) ∈ cart → lineFails db pid qty →
      ∃ e, createOrder db uid cart fid = .error (e, db)) := by
  constructor
  · intro e db2 h
    by_cases hc : cart = []
    · subst hc
      unfold createOrder at h
      rw [if_pos rfl] at h
      exact (congrArg Prod.snd (Except.error.inj h)).symm
    · unfold createOrder at h
      rw [if_neg hc] at h
      split at h
      next e0 herr =>
        exact (congrArg Prod.snd (Except.error.inj h)).symm
      next v hok =>
        obtain ⟨hmemv, hidsv⟩ := validateItems_ok_mem db cart v hok
        have hperm := sortByStore_perm v
        have hflat : (pyGroupBy (sortByStore v)).flatten = sortByStore v :=
          pyGroupBy_flatten (sortByStore v).length (sortByStore v) le_rfl
        have hall : ∀ x ∈ (pyGroupBy (sortByStore v)).flatten,
            findProduct db x.1.id = some x.1 ∧ (x.2 : Int) ≤ x.1.stock := by
          intro x hx
          rw [hflat] at hx
          exact hmemv x (hperm.mem_iff.mp hx)
        have hndflat : ((pyGroupBy (sortByStore v)).flatten.map
            (fun x => x.1.id)).Nodup := by
          rw [hflat]
          have h2 := hperm.map (fun x : Product × Nat => x.1.id)
          have h3 : (v.map (fun x : Product × Nat => x.1.id)).Nodup := by
            rw [hidsv]
            exact hnd
          exact h2.nodup_iff.mpr h3
        obtain ⟨s2, hs2⟩ := processGroups_ok uid (pyGroupBy (sortByStore v))
          fid { committed := db, pendingOrders := [] } hall hndflat
        rw [hs2] at h
        simp at h
  · intro pid qty hmem hfail
    obtain ⟨e, he⟩ := validateItems_error_of_fail db cart pid qty hmem hfail
    have hc : cart ≠ [] := by
      intro hcon
      subst hcon
      simp at hmem
    refine ⟨e, ?_⟩
    unfold createOrder
    rw [if_neg hc, he]

/-- C2 witness: a one-line cart asking for 5 units of a product with
stock 3 aborts with the pre-validation error and leaves the catalog
exactly as it was. -/
theorem create_order_all_or_nothing_witness :
    ∃ e, createOrder exC9db 9 [(42, 5)] 1 = .error (e, exC9db) :=
  (create_order_all_or_nothing exC9db 9 [(42, 5)] 1 (by simp)).2 42 5
    (by simp) (Or.inr ⟨⟨42, 1, "Water", 5, 3⟩, rfl, by norm_num⟩)
